import Mathlib

set_option linter.unusedVariables false

/-! Verification model of the audio-concatenation toolkit.

The definitions below are a shallow embedding of the repository sources:
services/file_management.py, services/audio_combiner.py,
services/v1/audio/concatenate.py, services/s3_toolkit.py and
services/gcp_toolkit.py. String/path helpers mirror the Python standard
library functions the sources use (os.path.basename, os.path.splitext,
os.path.join, POSIX os.path.abspath/normpath, urllib.parse.quote).
Strings are handled through their character lists, the logical
representation of String. External effects (HTTP transport, the ffmpeg
subprocess, cloud storage) are oracle parameters; the local filesystem is
explicit state. -/

/-- Splits a character list at every occurrence of the separator, like
Python str.split with a one-character separator. -/
def chSplit (sep : Char) : List Char → List (List Char)
  | [] => [[]]
  | c :: rest =>
    let r := chSplit sep rest
    if c = sep then [] :: r
    else
      match r with
      | [] => [[c]]
      | g :: gs => (c :: g) :: gs

/-- Python str.split with a one-character separator, on String. -/
def splitChar (sep : Char) (s : String) : List String :=
  (chSplit sep s.data).map (fun l => ⟨l⟩)

/-- Python os.path.basename: the part after the last slash. -/
def basename (p : String) : String :=
  (splitChar '/' p).getLastD ""

/-- Python s.split with a question mark, first component: the part of a
string before the first question mark (used to strip URL query strings). -/
def beforeQuery (s : String) : String :=
  (splitChar '?' s).headD ""

/-- Extension component of Python os.path.splitext applied to a basename:
the suffix starting at the last dot, empty when there is no dot or when
every character before the last dot is itself a dot (leading-dot files
such as .bashrc have no extension in Python). -/
def splitextExt (b : String) : String :=
  let parts := splitChar '.' b
  if parts.length ≤ 1 then ""
  else if parts.dropLast.all (fun x => x == "") then ""
  else "." ++ parts.getLastD ""

/-- Extension heuristic of download_file in services/file_management.py:
splitext on the basename stripped of its query string, falling back to
.mp4 when empty; when the candidate is longer than 5 characters the code
retries with the text after the last dot of the raw basename (query
stripped afterwards), and falls back to .mp4 when that is still longer
than 5 characters. -/
def extFromUrl (url : String) : String :=
  let stripped := beforeQuery (basename url)
  let e0 := splitextExt stripped
  let ext1 := if e0 = "" then ".mp4" else e0
  if ext1 = "" ∨ ext1.length > 5 then
    let e1 := "." ++ beforeQuery ((splitChar '.' (basename url)).getLastD "")
    if e1.length > 5 then ".mp4" else e1
  else ext1

/-- Python posixpath.isabs: the path starts with a slash. -/
def isAbsPath (s : String) : Bool :=
  s.data.head? == some '/'

/-- Whether a path ends with a slash (used by os.path.join). -/
def endsWithSlash (s : String) : Bool :=
  s.data.getLast? == some '/'

/-- Python posixpath.join for two components: the second wins when it is
absolute, otherwise the components are joined with a single slash. -/
def joinPath (a b : String) : String :=
  if isAbsPath b then b
  else if a = "" then b
  else if endsWithSlash a then a ++ b
  else a ++ "/" ++ b

/-- Joins path components with slashes. -/
def joinSlash : List String → String
  | [] => ""
  | [x] => x
  | x :: xs => x ++ "/" ++ joinSlash xs

/-- Component normalisation of Python posixpath.normpath: drops empty and
dot components, resolves dot-dot against the accumulated components
(keeping it only when a relative path has nothing left to pop). -/
def normComps (isAbs : Bool) (comps : List String) : List String :=
  comps.foldl
    (fun acc c =>
      if c = "" ∨ c = "." then acc
      else if c = ".." then
        if isAbs then acc.dropLast
        else
          match acc.getLast? with
          | some l => if l = ".." then acc ++ [".."] else acc.dropLast
          | none => [".."]
      else acc ++ [c])
    []

/-- Python posixpath.normpath: collapses repeated slashes and dot
components, preserving the leading slash (a double slash is kept as in
CPython when the path starts with exactly two slashes). -/
def normpath (p : String) : String :=
  if p = "" then "."
  else
    let isAbs := isAbsPath p
    let dbl := (p.data.take 2 == ['/', '/']) && !(p.data.take 3 == ['/', '/', '/'])
    let pre : String := if dbl then "//" else if isAbs then "/" else ""
    let r := pre ++ joinSlash (normComps isAbs (splitChar '/' p))
    if r = "" then "." else r

/-- Python posixpath.abspath: joins a relative path onto the process
working directory and normalises. -/
def pyAbspath (procCwd p : String) : String :=
  normpath (if isAbsPath p then p else joinPath procCwd p)

/-- Manifest path reference of services/v1/audio/concatenate.py: the
absolute path of the input; on the POSIX deployment platform os.path.sep
is already the forward slash, so the source's separator replacement is
the identity and is omitted. -/
def absPosix (procCwd p : String) : String :=
  pyAbspath procCwd p

/-- The ASCII apostrophe used to quote manifest references. -/
def apos : String :=
  String.singleton (Char.ofNat 39)

/-- One manifest line per input, in input order: the word file, a space,
and the reference wrapped in apostrophes, ending in a newline. This is
the exact text each loop iteration writes in both pipeline variants. -/
def manifestLines (ref : String → String) (files : List String) : List String :=
  files.map (fun p => "file " ++ apos ++ ref p ++ apos ++ "\n")

/-- UTF-8 bytes of one character. -/
def utf8Bytes (c : Char) : List Nat :=
  let n := c.toNat
  if n < 128 then [n]
  else if n < 2048 then [192 + n / 64, 128 + n % 64]
  else if n < 65536 then [224 + n / 4096, 128 + (n / 64) % 64, 128 + n % 64]
  else [240 + n / 262144, 128 + (n / 4096) % 64, 128 + (n / 64) % 64, 128 + n % 64]

/-- UTF-8 byte sequence of a string. -/
def strUTF8 (s : String) : List Nat :=
  (s.data.map utf8Bytes).flatten

/-- Uppercase hexadecimal digit, as urllib.parse.quote prints escapes. -/
def hexDigit (n : Nat) : Char :=
  if n < 10 then Char.ofNat (48 + n) else Char.ofNat (55 + n)

/-- Bytes urllib.parse.quote leaves unescaped: ASCII letters and digits,
underscore, dot, hyphen, tilde, plus the caller-supplied safe characters. -/
def isSafeByte (extra : List Char) (b : Nat) : Bool :=
  (48 ≤ b && b ≤ 57) || (65 ≤ b && b ≤ 90) || (97 ≤ b && b ≤ 122) ||
  b == 95 || b == 46 || b == 45 || b == 126 || (extra.map Char.toNat).contains b

/-- Python urllib.parse.quote with a given safe set: percent-escapes every
unsafe byte of the UTF-8 encoding with uppercase hexadecimal digits. -/
def pyQuote (extra : List Char) (s : String) : String :=
  ⟨(strUTF8 s).foldr
    (fun b acc =>
      if isSafeByte extra b then Char.ofNat b :: acc
      else '%' :: hexDigit (b / 16) :: hexDigit (b % 16) :: acc)
    []⟩

/-- Whether the needle occurs as a contiguous run inside the haystack. -/
def listHasInfix (needle : List Char) : List Char → Bool
  | [] => needle.isEmpty
  | c :: rest => needle.isPrefixOf (c :: rest) || listHasInfix needle rest

/-- Whether one string contains another as a contiguous substring. -/
def strContainsB (hay needle : String) : Bool :=
  listHasInfix needle.data hay.data

/-- Local filesystem: the list of existing files with their contents.
Operations keep at most one entry per path. -/
abbrev FS := List (String × String)

/-- Whether a path exists on the filesystem. -/
def fsExists (fs : FS) (p : String) : Bool :=
  fs.any (fun e => e.1 == p)

/-- Deletes a path, like a successful os.remove. -/
def fsRemove (fs : FS) (p : String) : FS :=
  fs.filter (fun e => e.1 != p)

/-- Creates or overwrites a file, like opening for writing. -/
def fsWrite (fs : FS) (p c : String) : FS :=
  fsRemove fs p ++ [(p, c)]

/-- Job-visible state: the filesystem plus the trace of every file the
run has created, in creation order, for the cleanup invariants. -/
structure St where
  fs : FS
  created : List (String × String)

/-- Writes a file and records it in the creation trace. -/
def stWrite (s : St) (p c : String) : St :=
  ⟨fsWrite s.fs p c, s.created ++ [(p, c)]⟩

/-- Python os.remove: raises FileNotFoundError on a missing path and
OSError on a path the environment refuses to delete (the locked oracle),
otherwise deletes the file. -/
def osRemoveE (locked : String → Bool) (fs : FS) (p : String) : Except String FS :=
  if fsExists fs p then
    if locked p then Except.error ("OSError: cannot remove " ++ p)
    else Except.ok (fsRemove fs p)
  else Except.error ("FileNotFoundError: " ++ p)

/-- cleanup_files of services/file_management.py: for each path, inside a
try block, remove the file if it exists; an OSError from the removal is
logged and swallowed so iteration continues. -/
def cleanup_files (locked : String → Bool) : List String → FS → FS
  | [], fs => fs
  | p :: ps, fs =>
    let fs1 :=
      if fsExists fs p then
        match osRemoveE locked fs p with
        | Except.ok fs2 => fs2
        | Except.error _ => fs
      else fs
    cleanup_files locked ps fs1

/-- cleanup_files with exception transparency: any exception the body
failed to catch would surface as an error value here. The only raising
operation, os.remove, sits inside the try/except, so the result is
always ok. -/
def cleanup_filesE (locked : String → Bool) : List String → FS → Except String FS
  | [], fs => Except.ok fs
  | p :: ps, fs =>
    let fs1 :=
      if fsExists fs p then
        match osRemoveE locked fs p with
        | Except.ok fs2 => fs2
        | Except.error _ => fs
      else fs
    cleanup_filesE locked ps fs1

/-- The paths a cleanup_files run actually deletes, in order. -/
def cleanup_files_removed (locked : String → Bool) : List String → FS → List String
  | [], _ => []
  | p :: ps, fs =>
    if fsExists fs p then
      if locked p then cleanup_files_removed locked ps fs
      else p :: cleanup_files_removed locked ps (fsRemove fs p)
    else cleanup_files_removed locked ps fs

/-- cleanup_files lifted to the traced state: deletions never touch the
creation trace. -/
def cleanupSt (locked : String → Bool) (paths : List String) (s : St) : St :=
  ⟨cleanup_files locked paths s.fs, s.created⟩

/-- Outcome of the HTTP layer for one requests.get call: either the
transport fails before any response, or a response arrives with a status
(ok meaning raise_for_status passes), the chunks iter_content yields
before any failure, and whether the stream then aborts mid-download. -/
inductive HttpOutcome where
  | connError (msg : String)
  | resp (statusOk : Bool) (chunks : List String) (midFail : Bool) (msg : String)

/-- download_file of services/file_management.py: raise_for_status runs
before any file is opened; on success a local name is built from the
fresh unique token plus the URL-derived extension, the file is created
and the streamed chunks are written to it; a RequestException anywhere is
re-raised as a download failure message. A mid-stream failure therefore
leaves the partially written file behind while returning an error. -/
def download_file (http : HttpOutcome) (uniqueId url storagePath : String) (s : St) :
    Except String String × St :=
  match http with
  | HttpOutcome.connError m => (Except.error ("File download failed: " ++ m), s)
  | HttpOutcome.resp statusOk chunks midFail m =>
    if statusOk then
      let localFilename := joinPath storagePath (uniqueId ++ extFromUrl url)
      let s1 := stWrite s localFilename (String.join chunks)
      if midFail then (Except.error ("File download failed: " ++ m), s1)
      else (Except.ok localFilename, s1)
    else (Except.error ("File download failed: " ++ m), s)

/-- Arguments of the S3 put performed by upload_to_s3. -/
structure S3PutCall where
  bucket : String
  key : String
deriving DecidableEq

/-- upload_to_s3 of services/s3_toolkit.py: the object key is exactly the
caller-supplied destination path, and the returned URL is the endpoint,
the bucket and the URL-quoted key (safe characters colon and slash)
joined with slashes. -/
def upload_to_s3 (file_path s3_url access_key secret_key bucket_name region
    destination_path : String) : S3PutCall × String :=
  let target_key := destination_path
  let encoded_key := pyQuote [':', '/'] target_key
  (⟨bucket_name, target_key⟩, s3_url ++ "/" ++ bucket_name ++ "/" ++ encoded_key)

/-- Arguments of the GCS blob upload performed by upload_to_gcs. -/
structure GcsBlobPut where
  bucket : String
  blobName : String
deriving DecidableEq

/-- Public URL of a GCS blob as the google-cloud-storage library builds
it: the storage host, the bucket and the quoted blob name. -/
def gcsPublicUrl (bucket_name blob_name : String) : String :=
  "https://storage.googleapis.com/" ++ bucket_name ++ "/" ++ pyQuote ['/'] blob_name

/-- upload_to_gcs of services/gcp_toolkit.py: fails when the module-level
client is uninitialised; the blob name is the caller-supplied destination
when one is given and otherwise the local basename; returns the blob's
public URL. -/
def upload_to_gcs (clientInit : Bool) (file_path bucket_name : String)
    (destination_blob_name : Option String) : Except String (GcsBlobPut × String) :=
  if clientInit then
    let target_blob_name :=
      match destination_blob_name with
      | some d => d
      | none => basename file_path
    Except.ok (⟨bucket_name, target_blob_name⟩, gcsPublicUrl bucket_name target_blob_name)
  else Except.error "GCS client is not initialized. Skipping file upload."

/-- Oracle environment of process_audio_concatenation: the HTTP outcome
and fresh UUID token per download call, the storage root, the ffmpeg
subprocess exit code and captured stderr (plus whether a failing run left
an output file behind), cloud_storage.upload_file (imported from a module
outside the sources, so an oracle returning the public URL or raising),
removal failures, and the initial filesystem. -/
structure EnvC where
  http : Nat → HttpOutcome
  tokens : Nat → String
  lsp : String
  ffmpegReturncode : Nat
  ffmpegStderr : String
  ffmpegWritesOutputOnFail : Bool
  mergedContent : String
  upload : String → String → Except String String
  locked : String → Bool
  fs0 : FS

/-- Result of the download loop of process_audio_concatenation: the first
exception if one was raised, the accumulated downloaded_files list, the
state, and how many times download_file was invoked. -/
structure DlLoopOut where
  err : Option String
  downloaded : List String
  st : St
  calls : Nat

/-- Download loop of process_audio_concatenation: each URL in turn goes
through download_file and the returned local path is appended to
downloaded_files; the first failure aborts the loop with the paths
appended so far. -/
def dlLoop (http : Nat → HttpOutcome) (tokens : Nat → String) (lsp : String) :
    List String → Nat → List String → St → DlLoopOut
  | [], _, acc, s => ⟨none, acc, s, 0⟩
  | url :: rest, i, acc, s =>
    match download_file (http i) (tokens i) url lsp s with
    | (Except.ok p, s1) =>
      let r := dlLoop http tokens lsp rest (i + 1) (acc ++ [p]) s1
      ⟨r.err, r.downloaded, r.st, r.calls + 1⟩
    | (Except.error e, s1) => ⟨some e, acc, s1, 1⟩

/-- The ffmpeg invocation a run performed: the working directory passed
to the subprocess (none when the tool inherits the process directory),
and the manifest and output arguments as they appear on the command
line. -/
structure FfmpegCall where
  cwd : Option String
  manifestArg : String
  outputArg : String
deriving DecidableEq

/-- Observable outcome of one pipeline run: the returned URL or raised
exception message, the final traced state, the number of download calls,
and the ffmpeg invocation when one happened. -/
structure RunResult where
  result : Except String String
  st : St
  calls : Nat
  ffmpegCall : Option FfmpegCall

/-- process_audio_concatenation of services/audio_combiner.py: downloads
every URL, writes the concat manifest of basenames next to them, appends
the manifest to downloaded_files, runs ffmpeg with the storage root as
working directory and basename arguments, raises a message embedding the
captured stderr when the exit code is nonzero, uploads on success, and in
a finally block appends the output file when it exists and hands the
whole downloaded_files list to cleanup_files. -/
def process_audio_concatenation (env : EnvC) (audio_urls : List String)
    (job_id : String) : RunResult :=
  let d := dlLoop env.http env.tokens env.lsp audio_urls 0 [] ⟨env.fs0, []⟩
  let body : Except String String × St × Option FfmpegCall :=
    match d.err with
    | some e => (Except.error e, cleanupSt env.locked d.downloaded d.st, none)
    | none =>
      let concatListPath := joinPath env.lsp ("concat_list_" ++ job_id ++ ".txt")
      let s1 := stWrite d.st concatListPath
        (String.join (manifestLines basename d.downloaded))
      let files1 := d.downloaded ++ [concatListPath]
      let outputFilename := job_id ++ "_merged.mp3"
      let outputPath := joinPath env.lsp outputFilename
      let call := FfmpegCall.mk (some env.lsp) (basename concatListPath) (basename outputPath)
      if env.ffmpegReturncode ≠ 0 then
        let s2 := if env.ffmpegWritesOutputOnFail then stWrite s1 outputPath "" else s1
        let files2 := if fsExists s2.fs outputPath then files1 ++ [outputPath] else files1
        (Except.error ("FFmpeg concatenation failed: " ++ env.ffmpegStderr),
          cleanupSt env.locked files2 s2, some call)
      else
        let s2 := stWrite s1 outputPath env.mergedContent
        let files2 := if fsExists s2.fs outputPath then files1 ++ [outputPath] else files1
        match env.upload outputPath ("merged_audio/" ++ outputFilename) with
        | Except.error e => (Except.error e, cleanupSt env.locked files2 s2, some call)
        | Except.ok cloudUrl => (Except.ok cloudUrl, cleanupSt env.locked files2 s2, some call)
  ⟨body.1, body.2.1, d.calls, body.2.2⟩

/-- One element of the media_urls request list: either a mapping (a JSON
object, modelled as its key-value pairs) or a plain string. -/
inductive MediaItem where
  | dict (entries : List (String × String))
  | strVal (s : String)

/-- Python subscripting media_item with the audio_url key: a plain string
raises TypeError, a mapping without the key raises KeyError, otherwise
the value is returned. -/
def getItemAudioUrl : MediaItem → Except String String
  | MediaItem.strVal _ => Except.error "TypeError: string indices must be integers"
  | MediaItem.dict entries =>
    match entries.lookup "audio_url" with
    | some v => Except.ok v
    | none => Except.error "KeyError: audio_url"

/-- The placeholder download_file defined at module level in
services/v1/audio/concatenate.py: it returns the target path unchanged
and creates nothing. -/
def download_file_v1 (url target_path : String) : String :=
  target_path

/-- The placeholder upload_file defined at module level in
services/v1/audio/concatenate.py: it returns a fixed public URL built
from the destination path. -/
def upload_file_v1 (local_path destination_path : String) : String :=
  "https://your-storage-bucket/public-url/" ++ destination_path

/-- Result of the download loop of process_audio_concatenate. -/
structure V1LoopOut where
  err : Option String
  inputs : List String
  calls : Nat

/-- Download loop of process_audio_concatenate: for each media item, the
audio_url subscript runs first (and can raise), then the per-index local
name is built under /tmp and download_file is called with it. -/
def v1Loop (job_id : String) : List MediaItem → Nat → List String → V1LoopOut
  | [], _, acc => ⟨none, acc, 0⟩
  | item :: rest, i, acc =>
    match getItemAudioUrl item with
    | Except.error e => ⟨some e, acc, 0⟩
    | Except.ok url =>
      let temp := joinPath "/tmp" (job_id ++ "_input_" ++ toString i ++ ".mp3")
      let inputFilename := download_file_v1 url temp
      let r := v1Loop job_id rest (i + 1) (acc ++ [inputFilename])
      ⟨r.err, r.inputs, r.calls + 1⟩

/-- os.remove lifted to the traced state. -/
def osRemoveSt (locked : String → Bool) (s : St) (p : String) : Except String St :=
  match osRemoveE locked s.fs p with
  | Except.ok fs1 => Except.ok ⟨fs1, s.created⟩
  | Except.error e => Except.error e

/-- A sequence of unguarded os.remove calls, stopping at the first
exception (the success-path cleanup of process_audio_concatenate). -/
def removeSeq (locked : String → Bool) : List String → St → Option String × St
  | [], s => (none, s)
  | p :: ps, s =>
    match osRemoveSt locked s p with
    | Except.ok s1 => removeSeq locked ps s1
    | Except.error e => (some e, s)

/-- One existence-guarded os.remove, as in the generic exception handler
of process_audio_concatenate. -/
def removeIfExistsOne (locked : String → Bool) (s : St) (p : String) : Option String × St :=
  if fsExists s.fs p then
    match osRemoveSt locked s p with
    | Except.ok s1 => (none, s1)
    | Except.error e => (some e, s)
  else (none, s)

/-- A sequence of existence-guarded os.remove calls, stopping at the
first exception. -/
def removeIfExistsSeq (locked : String → Bool) : List String → St → Option String × St
  | [], s => (none, s)
  | p :: ps, s =>
    match removeIfExistsOne locked s p with
    | (none, s1) => removeIfExistsSeq locked ps s1
    | (some e, s1) => (some e, s1)

/-- The generic except-Exception handler of process_audio_concatenate:
existence-guarded removes of the input files, then of the concat list
when that local is defined, then of the output path, then the original
exception is re-raised; an OSError inside the handler propagates instead
and abandons the rest. -/
def v1ExcHandler (locked : String → Bool) (inputs : List String) (concatDefined : Bool)
    (concatPath outputPath origErr : String) (s : St) : Except String String × St :=
  match removeIfExistsSeq locked inputs s with
  | (some e, s1) => (Except.error e, s1)
  | (none, s1) =>
    let step2 := if concatDefined then removeIfExistsOne locked s1 concatPath else (none, s1)
    match step2 with
    | (some e, s2) => (Except.error e, s2)
    | (none, s2) =>
      match removeIfExistsOne locked s2 outputPath with
      | (some e, s3) => (Except.error e, s3)
      | (none, s3) => (Except.error origErr, s3)

/-- Oracle environment of process_audio_concatenate: the process working
directory seen by os.path.abspath, whether the ffmpeg-python run raises
(and whether a failing run left an output file), the merged output
content, removal failures, and the initial filesystem. -/
structure EnvV1 where
  procCwd : String
  ffmpegFails : Bool
  ffmpegWritesOutputOnFail : Bool
  mergedContent : String
  locked : String → Bool
  fs0 : FS

/-- process_audio_concatenate of services/v1/audio/concatenate.py:
downloads every media item through the module's download_file, writes the
concat manifest of absolute POSIX paths, runs ffmpeg-python without
setting a working directory; a tool failure is caught by the
except-ffmpeg.Error clause which re-raises a fixed opaque message without
any cleanup; on success the output existence check runs, the file is
uploaded, and output, inputs and manifest are removed with unguarded
os.remove calls whose failure falls into the generic handler. -/
def process_audio_concatenate (env : EnvV1) (media_urls : List MediaItem)
    (job_id : String) : RunResult :=
  let lsp := "/tmp"
  let outputFilename := job_id ++ ".mp3"
  let outputPath := joinPath lsp outputFilename
  let s0 : St := ⟨env.fs0, []⟩
  let L := v1Loop job_id media_urls 0 []
  let body : Except String String × St × Option FfmpegCall :=
    match L.err with
    | some e =>
      let h := v1ExcHandler env.locked L.inputs false "" outputPath e s0
      (h.1, h.2, none)
    | none =>
      let concatPath := joinPath lsp (job_id ++ "_concat_list.txt")
      let s1 := stWrite s0 concatPath
        (String.join (manifestLines (absPosix env.procCwd) L.inputs))
      let call := FfmpegCall.mk none concatPath outputPath
      if env.ffmpegFails then
        let s2 := if env.ffmpegWritesOutputOnFail then stWrite s1 outputPath "" else s1
        (Except.error "FFmpeg error during concatenation. Check Cloud Run logs for details.",
          s2, some call)
      else
        let s2 := stWrite s1 outputPath env.mergedContent
        if fsExists s2.fs outputPath then
          let cloudUrl := upload_file_v1 outputPath ("merged_audio/" ++ outputFilename)
          match removeSeq env.locked (outputPath :: (L.inputs ++ [concatPath])) s2 with
          | (none, s3) => (Except.ok cloudUrl, s3, some call)
          | (some e, s3) =>
            let h := v1ExcHandler env.locked L.inputs true concatPath outputPath e s3
            (h.1, h.2, some call)
        else
          let h := v1ExcHandler env.locked L.inputs true concatPath outputPath
            ("Output file " ++ outputPath ++ " does not exist after combination.") s2
          (h.1, h.2, some call)
  ⟨body.1, body.2.1, L.calls, body.2.2⟩

/-- A cooperative combiner environment: every download streams two bytes
and succeeds, tokens are numbered, ffmpeg succeeds, upload returns a CDN
URL, nothing is locked, and the scratch directory starts empty. -/
def envOkC : EnvC :=
  { http := fun _ => HttpOutcome.resp true ["AB"] false ""
    tokens := fun i => "tok" ++ toString i
    lsp := "/tmp"
    ffmpegReturncode := 0
    ffmpegStderr := ""
    ffmpegWritesOutputOnFail := false
    mergedContent := "MERGED"
    upload := fun _ d => Except.ok ("https://cdn/" ++ d)
    locked := fun _ => false
    fs0 := [] }

/-- A combiner environment whose merge step exits with status 1 and a
diagnostic line on stderr. -/
def envMergeFailC : EnvC :=
  { envOkC with
    ffmpegReturncode := 1
    ffmpegStderr := "Impossible to open list entry tok0.mp3" }

/-- A combiner environment whose first transport stream dies after one
chunk has already been written. -/
def envMidFailC : EnvC :=
  { envOkC with http := fun _ => HttpOutcome.resp true ["AB"] true "connection reset" }

/-- A cooperative v1 environment: ffmpeg succeeds, nothing is locked, the
scratch directory starts empty. -/
def envOkV1 : EnvV1 :=
  { procCwd := "/app"
    ffmpegFails := false
    ffmpegWritesOutputOnFail := false
    mergedContent := "MERGED"
    locked := fun _ => false
    fs0 := [] }

/-- A v1 environment whose ffmpeg-python run raises ffmpeg.Error. -/
def envMergeFailV1 : EnvV1 :=
  { envOkV1 with ffmpegFails := true }

/-- A two-item request whose entries are well-formed mappings. -/
def mediaOk : List MediaItem :=
  [MediaItem.dict [("audio_url", "http://h/a.mp3")],
   MediaItem.dict [("audio_url", "http://h/b.mp3")]]

/-! Helper lemmas about the filesystem model and cleanup_files. -/

theorem fsExists_fsRemove_self (fs : FS) (p : String) :
    fsExists (fsRemove fs p) p = false := by
  induction fs with
  | nil => rfl
  | cons e fs ih =>
    by_cases h : e.1 = p
    · simp [fsRemove, fsExists, List.filter_cons, h]
    · simp [fsRemove, fsExists, List.filter_cons, h]

theorem fsExists_fsRemove_of_false {fs : FS} {q : String} (p : String)
    (h : fsExists fs q = false) : fsExists (fsRemove fs p) q = false := by
  induction fs with
  | nil => rfl
  | cons e fs ih =>
    simp only [fsExists, List.any_cons, Bool.or_eq_false_iff] at h
    by_cases h2 : e.1 = p
    · simpa [fsRemove, fsExists, List.filter_cons, h2] using ih h.2
    · simpa [fsRemove, fsExists, List.filter_cons, h2, h.1] using ih h.2

theorem fsExists_fsWrite_self (fs : FS) (p c : String) :
    fsExists (fsWrite fs p c) p = true := by
  simp [fsWrite, fsExists, List.any_append]

theorem cleanup_files_cons (locked : String → Bool) (p : String) (ps : List String)
    (fs : FS) :
    cleanup_files locked (p :: ps) fs =
      if fsExists fs p = true ∧ locked p = false
      then cleanup_files locked ps (fsRemove fs p)
      else cleanup_files locked ps fs := by
  by_cases h1 : fsExists fs p = true
  · by_cases h2 : locked p = true
    · simp [cleanup_files, osRemoveE, h1, h2]
    · have h2f : locked p = false := by simpa using h2
      simp [cleanup_files, osRemoveE, h1, h2f]
  · have h1f : fsExists fs p = false := by simpa using h1
    simp [cleanup_files, osRemoveE, h1f]

theorem cleanup_files_removed_cons (locked : String → Bool) (p : String)
    (ps : List String) (fs : FS) :
    cleanup_files_removed locked (p :: ps) fs =
      if fsExists fs p = true ∧ locked p = false
      then p :: cleanup_files_removed locked ps (fsRemove fs p)
      else cleanup_files_removed locked ps fs := by
  by_cases h1 : fsExists fs p = true
  · by_cases h2 : locked p = true
    · simp [cleanup_files_removed, h1, h2]
    · simp [Bool.not_eq_true] at h2
      simp [cleanup_files_removed, h1, h2]
  · simp [Bool.not_eq_true] at h1
    simp [cleanup_files_removed, h1]

theorem fsExists_cleanup_of_false (locked : String → Bool) (ps : List String) :
    ∀ fs q, fsExists fs q = false →
      fsExists (cleanup_files locked ps fs) q = false := by
  induction ps with
  | nil => intro fs q h; simpa [cleanup_files] using h
  | cons p ps ih =>
    intro fs q h
    rw [cleanup_files_cons]
    split
    · exact ih _ _ (fsExists_fsRemove_of_false p h)
    · exact ih _ _ h

theorem cleanup_files_removes (locked : String → Bool) (ps : List String) :
    ∀ fs q, q ∈ ps → locked q = false →
      fsExists (cleanup_files locked ps fs) q = false := by
  induction ps with
  | nil => intro fs q h; cases h
  | cons p ps ih =>
    intro fs q hq hl
    rw [cleanup_files_cons]
    rcases List.mem_cons.mp hq with rfl | hq2
    · split
      · exact fsExists_cleanup_of_false locked ps _ q (fsExists_fsRemove_self fs q)
      · rename_i hcond
        have hfe : fsExists fs q = false := by
          cases hx : fsExists fs q
          · rfl
          · exact absurd ⟨hx, hl⟩ hcond
        exact fsExists_cleanup_of_false locked ps _ q hfe
    · split
      · exact ih _ _ hq2 hl
      · exact ih _ _ hq2 hl

theorem cleanup_files_noop (locked : String → Bool) (ps : List String) :
    ∀ fs, (∀ p, p ∈ ps → fsExists fs p = true → locked p = true) →
      cleanup_files locked ps fs = fs := by
  induction ps with
  | nil => intro fs _; rfl
  | cons p ps ih =>
    intro fs h
    rw [cleanup_files_cons]
    split
    · rename_i hc
      have hlt := h p (List.mem_cons_self p ps) hc.1
      rw [hlt] at hc
      exact absurd hc.2 (by simp)
    · exact ih fs (fun q hq => h q (List.mem_cons_of_mem p hq))

theorem cleanup_files_removed_nil (locked : String → Bool) (ps : List String) :
    ∀ fs, (∀ p, p ∈ ps → fsExists fs p = true → locked p = true) →
      cleanup_files_removed locked ps fs = [] := by
  induction ps with
  | nil => intro fs _; rfl
  | cons p ps ih =>
    intro fs h
    rw [cleanup_files_removed_cons]
    split
    · rename_i hc
      have hlt := h p (List.mem_cons_self p ps) hc.1
      rw [hlt] at hc
      exact absurd hc.2 (by simp)
    · exact ih fs (fun q hq => h q (List.mem_cons_of_mem p hq))

theorem cleanup_filesE_ok (locked : String → Bool) (ps : List String) :
    ∀ fs, cleanup_filesE locked ps fs = Except.ok (cleanup_files locked ps fs) := by
  induction ps with
  | nil => intro fs; rfl
  | cons p ps ih =>
    intro fs
    simp only [cleanup_filesE, cleanup_files]
    exact ih _

/-- Concrete removal-failure oracle for witnesses: only the path b is
undeletable. -/
def lkB : String → Bool := fun p => p == "b"

/-- Concrete path list for witnesses. -/
def pathsW : List String := ["a", "b", "c"]

/-- Concrete filesystem for witnesses. -/
def fsW : FS := [("a", "1"), ("b", "2"), ("c", "3")]

/-- C6: cleanup_files treats a missing path as a no-op rather than an
error, a failed deletion neither stops the remaining deletions nor
propagates, and the function never raises: the exception-transparent run
always returns ok, a nonexistent head is simply skipped, and every
unlocked listed path is gone afterwards no matter which other deletions
failed or which paths were missing. -/
theorem cleanup_files_never_raises_and_continues :
    (∀ (locked : String → Bool) (paths : List String) (fs : FS),
       cleanup_filesE locked paths fs = Except.ok (cleanup_files locked paths fs))
    ∧ (∀ (locked : String → Bool) (p : String) (ps : List String) (fs : FS),
       fsExists fs p = false →
       cleanup_files locked (p :: ps) fs = cleanup_files locked ps fs)
    ∧ (∀ (locked : String → Bool) (paths : List String) (fs : FS) (q : String),
       q ∈ paths → locked q = false →
       fsExists (cleanup_files locked paths fs) q = false) := by
  refine ⟨fun locked paths fs => cleanup_filesE_ok locked paths fs, ?_, ?_⟩
  · intro locked p ps fs hex
    rw [cleanup_files_cons]
    simp [hex]
  · intro locked paths fs q hq hl
    exact cleanup_files_removes locked paths fs q hq hl

/-- Witness for C6 at a concrete run in which the path b cannot be
deleted and the path missing does not exist: the run still returns ok,
skips the missing path, and has deleted the later unlocked path c. -/
theorem cleanup_files_never_raises_and_continues_witness :
    cleanup_filesE lkB pathsW fsW = Except.ok (cleanup_files lkB pathsW fsW)
    ∧ cleanup_files lkB ("missing" :: pathsW) fsW = cleanup_files lkB pathsW fsW
    ∧ fsExists (cleanup_files lkB pathsW fsW) "c" = false :=
  ⟨cleanup_files_never_raises_and_continues.1 lkB pathsW fsW,
   cleanup_files_never_raises_and_continues.2.1 lkB "missing" pathsW fsW (by decide),
   cleanup_files_never_raises_and_continues.2.2 lkB pathsW fsW "c" (by decide) (by decide)⟩

/-- C10: cleanup_files is idempotent. After one run, every listed path
either no longer exists or is one the environment refuses to delete, so
a second run over the same list changes nothing and its list of actually
deleted paths is empty. -/
theorem cleanup_files_idempotent (locked : String → Bool) (paths : List String)
    (fs : FS) :
    cleanup_files locked paths (cleanup_files locked paths fs)
      = cleanup_files locked paths fs
    ∧ cleanup_files_removed locked paths (cleanup_files locked paths fs) = [] := by
  have key : ∀ p, p ∈ paths →
      fsExists (cleanup_files locked paths fs) p = true → locked p = true := by
    intro p hp hex
    cases hl : locked p
    · rw [cleanup_files_removes locked paths fs p hp hl] at hex
      cases hex
    · rfl
  exact ⟨cleanup_files_noop locked paths _ key,
    cleanup_files_removed_nil locked paths _ key⟩

/-- C4 amended: download_file raises a download failure message on a bad
HTTP status, a connection error, or a mid-stream transport failure. A
failure detected before streaming leaves the filesystem untouched, but a
mid-stream failure has already created the uniquely named local file,
which remains on disk when the error is raised. -/
theorem download_file_failure_behavior
    (token url sp m : String) (chunks : List String) (statusOk midFail : Bool)
    (s : St) :
    (statusOk = false →
      download_file (HttpOutcome.resp statusOk chunks midFail m) token url sp s
        = (Except.error ("File download failed: " ++ m), s))
    ∧ download_file (HttpOutcome.connError m) token url sp s
        = (Except.error ("File download failed: " ++ m), s)
    ∧ (statusOk = true → midFail = true →
        (download_file (HttpOutcome.resp statusOk chunks midFail m) token url sp s).1
          = Except.error ("File download failed: " ++ m)
        ∧ fsExists
            (download_file (HttpOutcome.resp statusOk chunks midFail m) token url sp s).2.fs
            (joinPath sp (token ++ extFromUrl url)) = true) := by
  refine ⟨?_, rfl, ?_⟩
  · intro h
    subst h
    rfl
  · intro h1 h2
    subst h1
    subst h2
    refine ⟨rfl, ?_⟩
    simp only [download_file, if_true]
    exact fsExists_fsWrite_self s.fs _ _

/-- Witness for C4 at concrete failures: a 404-status response raises
without touching the filesystem, and a mid-stream reset leaves the
partially written token-named file on disk. -/
theorem download_file_failure_behavior_witness :
    download_file (HttpOutcome.resp false ["AB"] false "status 404") "t"
        "http://h/a.mp3" "/tmp" ⟨[], []⟩
      = (Except.error ("File download failed: " ++ "status 404"), (⟨[], []⟩ : St))
    ∧ fsExists
        (download_file (HttpOutcome.resp true ["AB"] true "reset") "t"
          "http://h/a.mp3" "/tmp" ⟨[], []⟩).2.fs
        (joinPath "/tmp" ("t" ++ extFromUrl "http://h/a.mp3")) = true :=
  ⟨(download_file_failure_behavior "t" "http://h/a.mp3" "/tmp" "status 404" ["AB"]
      false false ⟨[], []⟩).1 rfl,
   ((download_file_failure_behavior "t" "http://h/a.mp3" "/tmp" "reset" ["AB"]
      true true ⟨[], []⟩).2.2 rfl rfl).2⟩

/-- C4 counterexample to the claim as stated: in a pipeline run whose
first transport stream dies mid-download, the call raises, yet the
partially written file is not registered in the caller's downloaded_files
list (which is still empty) and survives the whole run including its
cleanup phase. -/
theorem midstream_partial_file_unregistered_cex :
    (process_audio_concatenation envMidFailC ["http://h/a.mp3", "http://h/b.mp3"] "j").result
      = Except.error "File download failed: connection reset"
    ∧ (dlLoop envMidFailC.http envMidFailC.tokens envMidFailC.lsp
        ["http://h/a.mp3", "http://h/b.mp3"] 0 [] ⟨envMidFailC.fs0, []⟩).downloaded = []
    ∧ fsExists
        (process_audio_concatenation envMidFailC
          ["http://h/a.mp3", "http://h/b.mp3"] "j").st.fs "/tmp/tok0.mp3" = true
    ∧ (process_audio_concatenation envMidFailC
        ["http://h/a.mp3", "http://h/b.mp3"] "j").st.created.map Prod.fst
      = ["/tmp/tok0.mp3"] :=
  ⟨rfl, rfl, rfl, rfl⟩

/-- C7: a successful download returns the storage path joined with the
fresh unique token and the URL-derived extension, so the local stem is
the token and never the remote filename; the extension falls back to the
default mp4 when the URL path carries no suffix, and also when both
suffix candidates are longer than five characters. -/
theorem download_file_names_from_token
    (token url sp m : String) (chunks : List String) (s : St) :
    (download_file (HttpOutcome.resp true chunks false m) token url sp s).1
      = Except.ok (joinPath sp (token ++ extFromUrl url))
    ∧ (splitextExt (beforeQuery (basename url)) = "" → extFromUrl url = ".mp4")
    ∧ ((splitextExt (beforeQuery (basename url))).length > 5 →
        ("." ++ beforeQuery ((splitChar '.' (basename url)).getLastD "")).length > 5 →
        extFromUrl url = ".mp4") := by
  refine ⟨rfl, ?_, ?_⟩
  · intro h
    have c1 : (if splitextExt (beforeQuery (basename url)) = "" then ".mp4"
        else splitextExt (beforeQuery (basename url))) = ".mp4" := by rw [if_pos h]
    have c2 : ¬((".mp4" : String) = "" ∨ 5 < (".mp4" : String).length) := by decide
    simp only [extFromUrl]
    rw [c1, if_neg c2]
  · intro h1 h2
    have hne : splitextExt (beforeQuery (basename url)) ≠ "" := by
      intro he
      rw [he] at h1
      simp at h1
    have c1 : (if splitextExt (beforeQuery (basename url)) = "" then ".mp4"
        else splitextExt (beforeQuery (basename url)))
        = splitextExt (beforeQuery (basename url)) := by rw [if_neg hne]
    simp only [extFromUrl]
    rw [c1, if_pos (Or.inr h1), if_pos h2]

/-- Witness for C7: a URL without a suffix gets the default extension, a
URL with an oversized suffix also falls back, and the returned name is
built from the token. -/
theorem download_file_names_from_token_witness :
    (download_file (HttpOutcome.resp true ["AB"] false "") "abc123" "http://h/song"
        "/tmp" ⟨[], []⟩).1
      = Except.ok (joinPath "/tmp" ("abc123" ++ extFromUrl "http://h/song"))
    ∧ extFromUrl "http://h/song" = ".mp4"
    ∧ extFromUrl "http://h/a.verylongext" = ".mp4" :=
  ⟨(download_file_names_from_token "abc123" "http://h/song" "/tmp" "" ["AB"] ⟨[], []⟩).1,
   (download_file_names_from_token "abc123" "http://h/song" "/tmp" "" ["AB"] ⟨[], []⟩).2.1
     (by decide),
   (download_file_names_from_token "abc123" "http://h/a.verylongext" "/tmp" "" ["AB"]
     ⟨[], []⟩).2.2 (by decide) (by decide)⟩

/-- C8: both uploaders store the object under exactly the caller-supplied
destination key, independent of the local file path, and return a URL
that embeds that key: the S3 URL is the endpoint, bucket and quoted key,
which is the key itself whenever quoting leaves it unchanged, and the GCS
call with an explicit destination uses it verbatim as the blob name. -/
theorem upload_uses_caller_key
    (file_path s3_url access_key secret_key bucket_name region key : String) :
    (upload_to_s3 file_path s3_url access_key secret_key bucket_name region key).1
      = ⟨bucket_name, key⟩
    ∧ (upload_to_s3 file_path s3_url access_key secret_key bucket_name region key).2
      = s3_url ++ "/" ++ bucket_name ++ "/" ++ pyQuote [':', '/'] key
    ∧ (pyQuote [':', '/'] key = key →
        (upload_to_s3 file_path s3_url access_key secret_key bucket_name region key).2
          = s3_url ++ "/" ++ bucket_name ++ "/" ++ key)
    ∧ upload_to_gcs true file_path bucket_name (some key)
      = Except.ok (⟨bucket_name, key⟩, gcsPublicUrl bucket_name key) := by
  refine ⟨rfl, rfl, ?_, rfl⟩
  intro h
  simp [upload_to_s3, h]

/-- Witness for C8 at a concrete merged-audio key, whose characters are
all URL-safe so the returned URL ends with the key verbatim. -/
theorem upload_uses_caller_key_witness :
    (upload_to_s3 "/tmp/job1_merged.mp3" "https://s3.host" "ak" "sk" "bkt" "r"
        "merged_audio/job1_merged.mp3").1
      = ⟨"bkt", "merged_audio/job1_merged.mp3"⟩
    ∧ (upload_to_s3 "/tmp/job1_merged.mp3" "https://s3.host" "ak" "sk" "bkt" "r"
        "merged_audio/job1_merged.mp3").2
      = "https://s3.host" ++ "/" ++ "bkt" ++ "/" ++ "merged_audio/job1_merged.mp3"
    ∧ upload_to_gcs true "/tmp/job1_merged.mp3" "bkt" (some "merged_audio/job1_merged.mp3")
      = Except.ok (⟨"bkt", "merged_audio/job1_merged.mp3"⟩,
          gcsPublicUrl "bkt" "merged_audio/job1_merged.mp3") :=
  ⟨(upload_uses_caller_key "/tmp/job1_merged.mp3" "https://s3.host" "ak" "sk" "bkt" "r"
      "merged_audio/job1_merged.mp3").1,
   (upload_uses_caller_key "/tmp/job1_merged.mp3" "https://s3.host" "ak" "sk" "bkt" "r"
      "merged_audio/job1_merged.mp3").2.2.1 (by decide),
   (upload_uses_caller_key "/tmp/job1_merged.mp3" "https://s3.host" "ak" "sk" "bkt" "r"
      "merged_audio/job1_merged.mp3").2.2.2⟩

/-! Helper lemmas about substring containment and state preservation. -/

theorem isPrefixOf_self (l : List Char) : l.isPrefixOf l = true := by
  induction l with
  | nil => rfl
  | cons c cs ih => simp [List.isPrefixOf, ih]

theorem listHasInfix_append_self (a b : List Char) :
    listHasInfix b (a ++ b) = true := by
  induction a with
  | nil =>
    cases b with
    | nil => rfl
    | cons c cs => simp [listHasInfix, isPrefixOf_self]
  | cons c cs ih => simp [listHasInfix, ih]

theorem strContainsB_append_self (a b : String) :
    strContainsB (a ++ b) b = true := by
  have hd : (a ++ b).data = a.data ++ b.data := by
    cases a
    cases b
    rfl
  simp [strContainsB, hd, listHasInfix_append_self]

theorem isPrefixOf_length_le {l1 l2 : List Char} (h : l1.isPrefixOf l2 = true) :
    l1.length ≤ l2.length := by
  induction l1 generalizing l2 with
  | nil => simp
  | cons a as ih =>
    cases l2 with
    | nil => simp [List.isPrefixOf] at h
    | cons b bs =>
      simp only [List.isPrefixOf, Bool.and_eq_true] at h
      simpa using ih h.2

theorem listHasInfix_length_le {n h : List Char} (hx : listHasInfix n h = true) :
    n.length ≤ h.length := by
  induction h with
  | nil =>
    simp only [listHasInfix, List.isEmpty_iff] at hx
    simp [hx]
  | cons c cs ih =>
    simp only [listHasInfix, Bool.or_eq_true] at hx
    rcases hx with h1 | h2
    · exact isPrefixOf_length_le h1
    · exact le_trans (ih h2) (by simp)

theorem strContainsB_false_of_longer {hay s : String} (h : hay.length < s.length) :
    strContainsB hay s = false := by
  cases hc : strContainsB hay s
  · rfl
  · exact absurd (listHasInfix_length_le hc) (Nat.not_le_of_lt h)

theorem osRemoveSt_created {locked : String → Bool} {s : St} {p : String} {s1 : St}
    (h : osRemoveSt locked s p = Except.ok s1) : s1.created = s.created := by
  unfold osRemoveSt at h
  cases h2 : osRemoveE locked s.fs p with
  | ok fs1 =>
    rw [h2] at h
    injection h with h3
    rw [← h3]
  | error e =>
    rw [h2] at h
    cases h

theorem removeSeq_snd_created (locked : String → Bool) (ps : List String) :
    ∀ s : St, ((removeSeq locked ps s).2).created = s.created := by
  induction ps with
  | nil => intro s; rfl
  | cons p ps ih =>
    intro s
    cases hr : osRemoveSt locked s p with
    | ok s1 =>
      have h1 := osRemoveSt_created hr
      simp only [removeSeq, hr]
      rw [ih s1, h1]
    | error e => simp only [removeSeq, hr]

theorem removeIfExistsOne_created (locked : String → Bool) (s : St) (p : String) :
    ((removeIfExistsOne locked s p).2).created = s.created := by
  unfold removeIfExistsOne
  split
  · cases hr : osRemoveSt locked s p with
    | ok s1 => simp [hr, osRemoveSt_created hr]
    | error e => simp [hr]
  · rfl

theorem removeIfExistsSeq_snd_created (locked : String → Bool) (ps : List String) :
    ∀ s : St, ((removeIfExistsSeq locked ps s).2).created = s.created := by
  induction ps with
  | nil => intro s; rfl
  | cons p ps ih =>
    intro s
    cases hr : removeIfExistsOne locked s p with
    | mk e s1 =>
      have h1 : s1.created = s.created := by
        have h0 := removeIfExistsOne_created locked s p
        rw [hr] at h0
        exact h0
      cases e with
      | none =>
        simp only [removeIfExistsSeq, hr]
        rw [ih s1, h1]
      | some e2 => simp only [removeIfExistsSeq, hr, h1]

theorem v1ExcHandler_snd_created (locked : String → Bool) (inputs : List String)
    (concatDefined : Bool) (concatPath outputPath origErr : String) (s : St) :
    ((v1ExcHandler locked inputs concatDefined concatPath outputPath origErr s).2).created
      = s.created := by
  unfold v1ExcHandler
  cases h1 : removeIfExistsSeq locked inputs s with
  | mk e1 s1 =>
    have hc1 : s1.created = s.created := by
      have h0 := removeIfExistsSeq_snd_created locked inputs s
      rw [h1] at h0
      exact h0
    cases e1 with
    | some e => simpa using hc1
    | none =>
      cases hcd : concatDefined with
      | false =>
        simp only [Bool.false_eq_true, if_false]
        cases h3 : removeIfExistsOne locked s1 outputPath with
        | mk e3 s3 =>
          have hc3 : s3.created = s1.created := by
            have h0 := removeIfExistsOne_created locked s1 outputPath
            rw [h3] at h0
            exact h0
          cases e3 with
          | some e => simpa [h3, hc3] using hc1
          | none => simpa [h3, hc3] using hc1
      | true =>
        simp only [if_true]
        cases h2 : removeIfExistsOne locked s1 concatPath with
        | mk e2 s2 =>
          have hc2 : s2.created = s1.created := by
            have h0 := removeIfExistsOne_created locked s1 concatPath
            rw [h2] at h0
            exact h0
          cases e2 with
          | some e => simpa [h2, hc2] using hc1
          | none =>
            cases h3 : removeIfExistsOne locked s2 outputPath with
            | mk e3 s3 =>
              have hc3 : s3.created = s2.created := by
                have h0 := removeIfExistsOne_created locked s2 outputPath
                rw [h3] at h0
                exact h0
              cases e3 with
              | some e =>
                simp only [h2, h3]
                rw [hc3, hc2, hc1]
              | none =>
                simp only [h2, h3]
                rw [hc3, hc2, hc1]

/-- C1 evaluation at the failing input: a two-item run of
process_audio_concatenate whose merge step raises leaves the manifest it
created on disk, because the except-ffmpeg.Error clause re-raises its
opaque message without running any cleanup and the later generic handler
of the same try statement is never entered. -/
theorem v1_merge_failure_skips_cleanup :
    (process_audio_concatenate envMergeFailV1 mediaOk "job1").result
      = Except.error "FFmpeg error during concatenation. Check Cloud Run logs for details."
    ∧ (process_audio_concatenate envMergeFailV1 mediaOk "job1").st.created.map Prod.fst
      = ["/tmp/job1_concat_list.txt"]
    ∧ fsExists (process_audio_concatenate envMergeFailV1 mediaOk "job1").st.fs
        "/tmp/job1_concat_list.txt" = true :=
  ⟨rfl, rfl, rfl⟩

/-- C9: when the first element of media_urls is a plain string rather
than a mapping, the audio_url subscript raises TypeError in the first
loop iteration, so the run fails with that error before any file, in
particular the manifest, has been created, and before any download call. -/
theorem v1_string_item_raises_before_manifest
    (env : EnvV1) (s : String) (rest : List MediaItem) (job_id : String)
    (h0 : env.fs0 = []) :
    (process_audio_concatenate env (MediaItem.strVal s :: rest) job_id).result
      = Except.error "TypeError: string indices must be integers"
    ∧ (process_audio_concatenate env (MediaItem.strVal s :: rest) job_id).st.created = []
    ∧ (process_audio_concatenate env (MediaItem.strVal s :: rest) job_id).calls = 0 := by
  have hL : v1Loop job_id (MediaItem.strVal s :: rest) 0 []
      = ⟨some "TypeError: string indices must be integers", [], 0⟩ := rfl
  refine ⟨?_, ?_, ?_⟩ <;>
    simp [process_audio_concatenate, hL, v1ExcHandler, removeIfExistsSeq,
      removeIfExistsOne, fsExists, h0]

/-- Witness for C9 at a concrete request whose only element is a raw URL
string. -/
theorem v1_string_item_raises_before_manifest_witness :
    (process_audio_concatenate envOkV1 [MediaItem.strVal "http://h/a.mp3"] "job1").result
      = Except.error "TypeError: string indices must be integers"
    ∧ (process_audio_concatenate envOkV1
        [MediaItem.strVal "http://h/a.mp3"] "job1").st.created = []
    ∧ (process_audio_concatenate envOkV1 [MediaItem.strVal "http://h/a.mp3"] "job1").calls
      = 0 :=
  v1_string_item_raises_before_manifest envOkV1 "http://h/a.mp3" [] "job1" rfl

/-- C2 counterexample to the claim as stated: in this merge-failure run
of process_audio_concatenation the raised message embeds the tool's
stderr verbatim as a substring. -/
theorem combiner_merge_error_embeds_stderr_cex :
    (process_audio_concatenation envMergeFailC ["http://h/a.mp3", "http://h/b.mp3"] "j").result
      = Except.error "FFmpeg concatenation failed: Impossible to open list entry tok0.mp3"
    ∧ strContainsB "FFmpeg concatenation failed: Impossible to open list entry tok0.mp3"
        "Impossible to open list entry tok0.mp3" = true :=
  ⟨rfl, rfl⟩

/-- C2 amended: when the merge tool fails, process_audio_concatenate
raises a fixed opaque message that cannot contain any diagnostic text
longer than itself, while process_audio_concatenation raises a message
that embeds the captured stderr verbatim. -/
theorem merge_error_message_policy :
    (∀ (env : EnvV1) (media : List MediaItem) (job_id : String),
       env.ffmpegFails = true → (v1Loop job_id media 0 []).err = none →
       (process_audio_concatenate env media job_id).result
         = Except.error "FFmpeg error during concatenation. Check Cloud Run logs for details.")
    ∧ (∀ s : String,
       ("FFmpeg error during concatenation. Check Cloud Run logs for details." : String).length
           < s.length →
       strContainsB "FFmpeg error during concatenation. Check Cloud Run logs for details." s
         = false)
    ∧ (∀ (env : EnvC) (urls : List String) (job_id : String),
       env.ffmpegReturncode ≠ 0 →
       (dlLoop env.http env.tokens env.lsp urls 0 [] ⟨env.fs0, []⟩).err = none →
       (process_audio_concatenation env urls job_id).result
           = Except.error ("FFmpeg concatenation failed: " ++ env.ffmpegStderr)
         ∧ strContainsB ("FFmpeg concatenation failed: " ++ env.ffmpegStderr)
             env.ffmpegStderr = true) := by
  refine ⟨?_, fun s h => strContainsB_false_of_longer h, ?_⟩
  · intro env media job_id hff hloop
    simp only [process_audio_concatenate, hloop, hff, if_true]
  · intro env urls job_id hrc hloop
    refine ⟨?_, strContainsB_append_self _ _⟩
    simp only [process_audio_concatenation, hloop, if_pos hrc]

set_option maxRecDepth 4000 in
/-- Witness for C2 at concrete merge failures of each variant and at a
diagnostic string longer than the fixed opaque message. -/
theorem merge_error_message_policy_witness :
    (process_audio_concatenate envMergeFailV1 mediaOk "j").result
      = Except.error "FFmpeg error during concatenation. Check Cloud Run logs for details."
    ∧ strContainsB "FFmpeg error during concatenation. Check Cloud Run logs for details."
        "frame I dropped: deprecated pixel format used, make sure you did set range correctly, and this very long tool diagnostic keeps going" = false
    ∧ (process_audio_concatenation envMergeFailC ["http://h/a.mp3", "http://h/b.mp3"] "jw").result
      = Except.error ("FFmpeg concatenation failed: " ++ envMergeFailC.ffmpegStderr) :=
  ⟨merge_error_message_policy.1 envMergeFailV1 mediaOk "j" rfl rfl,
   merge_error_message_policy.2.1
     "frame I dropped: deprecated pixel format used, make sure you did set range correctly, and this very long tool diagnostic keeps going"
     (by decide),
   (merge_error_message_policy.2.2 envMergeFailC ["http://h/a.mp3", "http://h/b.mp3"] "jw"
     (by decide) (by decide)).1⟩

/-- C3 counterexample to the claim as stated: a single-URL request to
process_audio_concatenation raises no validation error at all, invokes
the download function once rather than zero times, and even completes
the whole pipeline returning the upload URL. -/
theorem single_url_reaches_download_cex :
    (process_audio_concatenation envOkC ["http://h/a.mp3"] "job1").calls = 1
    ∧ (process_audio_concatenation envOkC ["http://h/a.mp3"] "job1").result
      = Except.ok "https://cdn/merged_audio/job1_merged.mp3" :=
  ⟨rfl, rfl⟩

/-- C3 amended: neither pipeline validates a minimum number of source
URLs; a request with exactly one source invokes the download function
exactly once in process_audio_concatenation, whatever the environment
does, and likewise in process_audio_concatenate whenever the single item
carries the audio_url key. -/
theorem no_minimum_url_validation :
    (∀ (env : EnvC) (url job_id : String),
       (process_audio_concatenation env [url] job_id).calls = 1)
    ∧ (∀ (env : EnvV1) (entries : List (String × String)) (u job_id : String),
       entries.lookup "audio_url" = some u →
       (process_audio_concatenate env [MediaItem.dict entries] job_id).calls = 1) := by
  constructor
  · intro env url job_id
    have hcalls : (process_audio_concatenation env [url] job_id).calls
        = (dlLoop env.http env.tokens env.lsp [url] 0 [] ⟨env.fs0, []⟩).calls := rfl
    rw [hcalls]
    rcases hdf : download_file (env.http 0) (env.tokens 0) url env.lsp ⟨env.fs0, []⟩
      with ⟨res, s1⟩
    cases res with
    | ok p => simp [dlLoop, hdf]
    | error e => simp [dlLoop, hdf]
  · intro env entries u job_id hlk
    have hcalls : (process_audio_concatenate env [MediaItem.dict entries] job_id).calls
        = (v1Loop job_id [MediaItem.dict entries] 0 []).calls := rfl
    rw [hcalls]
    simp [v1Loop, getItemAudioUrl, hlk]

/-- Witness for C3 at a concrete single-item request of each variant. -/
theorem no_minimum_url_validation_witness :
    (process_audio_concatenation envMergeFailC ["http://h/solo.mp3"] "jw").calls = 1
    ∧ (process_audio_concatenate envOkV1
        [MediaItem.dict [("audio_url", "http://h/solo.mp3")]] "jw").calls = 1 :=
  ⟨no_minimum_url_validation.1 envMergeFailC "http://h/solo.mp3" "jw",
   no_minimum_url_validation.2 envOkV1 [("audio_url", "http://h/solo.mp3")]
     "http://h/solo.mp3" "jw" rfl⟩

/-- C5: whenever a run reaches the manifest stage, the manifest file it
creates holds exactly the concatenation of one quoted line per
downloaded input, in input order; process_audio_concatenation references
inputs by basename and invokes the merge tool with the storage root as
working directory and basename arguments, while process_audio_concatenate
references inputs by absolute POSIX path and invokes the tool without
setting a working directory; and the manifest line list always has one
line per input whose text is the word file followed by the reference in
apostrophes. -/
theorem manifest_one_quoted_line_per_input :
    (∀ (env : EnvC) (urls : List String) (job_id : String),
       (dlLoop env.http env.tokens env.lsp urls 0 [] ⟨env.fs0, []⟩).err = none →
       ((joinPath env.lsp ("concat_list_" ++ job_id ++ ".txt"),
          String.join (manifestLines basename
            (dlLoop env.http env.tokens env.lsp urls 0 [] ⟨env.fs0, []⟩).downloaded))
          ∈ (process_audio_concatenation env urls job_id).st.created
        ∧ (process_audio_concatenation env urls job_id).ffmpegCall
            = some ⟨some env.lsp,
                basename (joinPath env.lsp ("concat_list_" ++ job_id ++ ".txt")),
                basename (joinPath env.lsp (job_id ++ "_merged.mp3"))⟩))
    ∧ (∀ (env : EnvV1) (media : List MediaItem) (job_id : String),
       (v1Loop job_id media 0 []).err = none →
       ((joinPath "/tmp" (job_id ++ "_concat_list.txt"),
          String.join (manifestLines (absPosix env.procCwd)
            (v1Loop job_id media 0 []).inputs))
          ∈ (process_audio_concatenate env media job_id).st.created
        ∧ (process_audio_concatenate env media job_id).ffmpegCall
            = some ⟨none, joinPath "/tmp" (job_id ++ "_concat_list.txt"),
                joinPath "/tmp" (job_id ++ ".mp3")⟩))
    ∧ (∀ (ref : String → String) (files : List String),
       (manifestLines ref files).length = files.length
       ∧ ∀ i, i < files.length →
           (manifestLines ref files).getD i ""
             = "file " ++ apos ++ ref (files.getD i "") ++ apos ++ "\n") := by
  refine ⟨?_, ?_, ?_⟩
  · intro env urls job_id h
    constructor
    · simp only [process_audio_concatenation, h]
      split
      · split <;> simp [cleanupSt, stWrite]
      · split <;> simp [cleanupSt, stWrite]
    · simp only [process_audio_concatenation, h]
      split
      · rfl
      · split <;> rfl
  · intro env media job_id h
    constructor
    · simp only [process_audio_concatenate, h]
      split
      · split <;> simp [stWrite]
      · simp only [stWrite, fsExists_fsWrite_self, if_true]
        split
        · rename_i s3 heq
          have h0 := congrArg (fun r => r.2) heq
          simp only at h0
          rw [← h0, removeSeq_snd_created]
          simp [stWrite]
        · rename_i e3 s3 heq
          rw [v1ExcHandler_snd_created]
          have h0 := congrArg (fun r => r.2) heq
          simp only at h0
          rw [← h0, removeSeq_snd_created]
          simp [stWrite]
    · simp only [process_audio_concatenate, h]
      split
      · rfl
      · simp only [stWrite, fsExists_fsWrite_self, if_true]
        split <;> rfl
  · intro ref files
    constructor
    · simp [manifestLines]
    · induction files with
      | nil => intro i hi; exact absurd hi (by simp)
      | cons a as ih =>
        intro i hi
        cases i with
        | zero => rfl
        | succ n => exact ih n (Nat.lt_of_succ_lt_succ hi)

/-- Witness for C5 at concrete cooperative runs of both variants and at
the first line of a concrete manifest. -/
theorem manifest_one_quoted_line_per_input_witness :
    ((joinPath envOkC.lsp ("concat_list_" ++ "jm5" ++ ".txt"),
       String.join (manifestLines basename
         (dlLoop envOkC.http envOkC.tokens envOkC.lsp ["http://h/a.mp3", "http://h/b.mp3"]
           0 [] ⟨envOkC.fs0, []⟩).downloaded))
       ∈ (process_audio_concatenation envOkC ["http://h/a.mp3", "http://h/b.mp3"] "jm5").st.created)
    ∧ (process_audio_concatenate envOkV1 mediaOk "jm5v").ffmpegCall
      = some ⟨none, joinPath "/tmp" ("jm5v" ++ "_concat_list.txt"),
          joinPath "/tmp" ("jm5v" ++ ".mp3")⟩
    ∧ (manifestLines basename ["/tmp/a.mp3"]).getD 0 ""
      = "file " ++ apos ++ basename (List.getD ["/tmp/a.mp3"] 0 "") ++ apos ++ "\n" :=
  ⟨(manifest_one_quoted_line_per_input.1 envOkC ["http://h/a.mp3", "http://h/b.mp3"] "jm5"
      rfl).1,
   (manifest_one_quoted_line_per_input.2.1 envOkV1 mediaOk "jm5v" rfl).2,
   (manifest_one_quoted_line_per_input.2.2 basename ["/tmp/a.mp3"]).2 0 (by decide)⟩
